import Mathlib

/-!
# MeshNet simulation model — verification of spec claims

Shallow embedding of `src/meshnet-simulation/src/meshnet_model.py` (and the
Ki rank-consistency harness of `src/meshnet-simulation/src/multi_seed.py`).
Python floats are modelled as real numbers; the seeded numpy generator is
modelled as an abstract stream of real draws `rng : ℕ → ℝ` consumed at an
explicit counter, so every theorem quantifies over all possible draw values.
Python's `int(x)` (truncation toward zero) is `pyInt`; `round(x, d)`
(round to `d` decimals) is `pyRound` — Python rounds half to even, we round
half away from zero via Mathlib's `round`; no claim touches an exact half.
-/

namespace MeshNet

/- ── Constants (meshnet_model.py, module level) ───────────────────────── -/

def TOTAL_SUPPLY : ℝ := 1000000000
def BASE_EMISSION : ℝ := 109589
def PID_MIN : ℝ := 27397
def PID_MAX : ℝ := 328767
def N_TARGET : ℝ := 10000
def PROTOCOL_FEE : ℝ := 0.30
def KP_NORM : ℝ := 0.8
def KI_NORM : ℝ := 0.15
def KD_NORM : ℝ := 0.2
def SLASH_DOWNTIME : ℝ := 0.10
def SLASH_FRAUD : ℝ := 1.00
def PID_CADENCE : ℕ := 14
def TIMESTEPS : ℕ := 1825
def OPPORTUNITY_COST : ℝ := 5.0
def EXIT_PROB_BASE : ℝ := 0.008
def EXIT_PROB_VETERAN : ℝ := 0.003
def ENTRY_CAP_ABS : ℤ := 30
/-- calibration defaults (`CAL` is empty: no calibration file ships in src). -/
def OU_KAPPA : ℝ := 2.8
def OU_SIGMA : ℝ := 0.049

/- ── Python primitives ────────────────────────────────────────────────── -/

/-- Python `int(x)`: truncation toward zero. -/
noncomputable def pyInt (x : ℝ) : ℤ := if 0 ≤ x then ⌊x⌋ else ⌈x⌉

/-- Python `round(x, d)` as a real: round to `d` decimal places. -/
noncomputable def pyRound (x : ℝ) (d : ℕ) : ℝ := ((round (x * 10 ^ d) : ℤ) : ℝ) / 10 ^ d

/-- `rng.normal(mu, sigma)` given the raw draw `v`. -/
def normalDraw (mu sigma v : ℝ) : ℝ := mu + sigma * v

/-- `rng.integers(0, n)` given the raw draw `v`: some integer in `[0, n)`. -/
noncomputable def randNat (v : ℝ) (n : ℕ) : ℕ := (pyInt v).toNat % n

/-- `rng.uniform(a, b)` given the raw draw `v`. -/
def uniformDraw (a b v : ℝ) : ℝ := a + (b - a) * v

/- ── Scenario catalog ─────────────────────────────────────────────────── -/

inductive ShockKind
  | demand_contraction
  | operator_poach
  | cost_increase
deriving DecidableEq, Inhabited

structure Scenario where
  demand_growth_annual : ℝ
  price_drift : ℝ
  shock_month : Option ℕ
  shock_kind : Option ShockKind
  poach_rate : ℝ := 0.25
  cost_multiplier : ℝ := 1.3

/-- `(scenario.get("shock_month") or 999) * 30`: Python `or` replaces both
`None` and the falsy `0` by 999. -/
def shockDay (s : Scenario) : ℕ :=
  (match s.shock_month with
   | none => 999
   | some 0 => 999
   | some m => m) * 30

def bull : Scenario :=
  { demand_growth_annual := 0.30, price_drift := 0.002,
    shock_month := none, shock_kind := none }

def bear : Scenario :=
  { demand_growth_annual := -0.15, price_drift := -0.001,
    shock_month := some 12, shock_kind := some .demand_contraction }

def competitor : Scenario :=
  { demand_growth_annual := -0.10, price_drift := -0.001,
    shock_month := some 18, shock_kind := some .operator_poach,
    poach_rate := 0.25 }

def regulatory : Scenario :=
  { demand_growth_annual := -0.05, price_drift := -0.001,
    shock_month := some 18, shock_kind := some .cost_increase,
    cost_multiplier := 1.30 }

/- ── Emission controller ──────────────────────────────────────────────── -/

/-- `pid_emission`: PID-controlled emission rate with normalized gains.
Returns `(new rate or None, integral accumulator, previous error)`. -/
noncomputable def pid_emission (N : ℕ) (integral_norm prev_error_norm : ℝ) (t : ℕ)
    (kp ki kd : Option ℝ) : Option ℝ × ℝ × ℝ :=
  if t % PID_CADENCE ≠ 0 then (none, integral_norm, prev_error_norm)
  else
    let kP := kp.getD KP_NORM
    let kI := ki.getD KI_NORM
    let kD := kd.getD KD_NORM
    let error_norm := (N_TARGET - N) / N_TARGET
    let integral1 := max (-5.0) (min 5.0 (integral_norm + error_norm))
    let derivative_norm := error_norm - prev_error_norm
    let adjustment := BASE_EMISSION *
      (kP * error_norm + kI * integral1 + kD * derivative_norm)
    let new_E := max PID_MIN (min PID_MAX (BASE_EMISSION + adjustment))
    (some new_E, integral1, error_norm)

/-- `static_emission`: fixed schedule, `BASE_EMISSION * 0.95 ** (t / 365)`. -/
noncomputable def static_emission (t : ℕ) : ℝ :=
  BASE_EMISSION * (0.95 : ℝ) ^ ((t : ℝ) / 365)

/-- `burn_tokens`: tokens burned from fee revenue. -/
noncomputable def burn_tokens (F_daily P : ℝ) : ℝ :=
  F_daily * PROTOCOL_FEE / max P 0.001

/- ── Agents ───────────────────────────────────────────────────────────── -/

inductive OpType
  | high_commitment
  | casual
  | mercenary
deriving DecidableEq, Inhabited

structure Agent where
  id : ℕ
  type : OpType
  exit_threshold : ℝ
  price_sensitivity : ℝ
  uptime : ℝ
  fraud_prob : ℝ
  stake : ℤ
  reputation : ℝ
  active : Bool
  seasons_active : ℕ
deriving Inhabited

structure Whale where
  idx : ℕ
  tokens : ℤ
  reputation : ℝ
  selfish_prob : ℝ
deriving Inhabited

def countActive (l : List Agent) : ℕ := l.countP (fun a => a.active)

/-- The per-type row of `create_operators`:
`(type, exit_threshold, price_sensitivity, uptime_base, fraud_prob)`,
40% high-commitment, 30% casual, 15% mercenary, remainder casual. -/
noncomputable def typesFor (n : ℕ) : List (OpType × ℝ × ℝ × ℝ × ℝ) :=
  List.replicate (pyInt ((n : ℝ) * 0.40)).toNat (OpType.high_commitment, 0.3, 0.2, 0.995, 0.0) ++
  List.replicate (pyInt ((n : ℝ) * 0.30)).toNat (OpType.casual, 0.8, 0.6, 0.95, 0.0) ++
  List.replicate (pyInt ((n : ℝ) * 0.15)).toNat (OpType.mercenary, 1.2, 0.9, 0.85, 0.15) ++
  List.replicate (n - (pyInt ((n : ℝ) * 0.40)).toNat - (pyInt ((n : ℝ) * 0.30)).toNat
      - (pyInt ((n : ℝ) * 0.15)).toNat) (OpType.casual, 0.8, 0.6, 0.95, 0.0)

/-- The body of `create_operators`: one agent per type row, consuming a
normal draw (uptime) and an integer draw (stake) each. -/
noncomputable def buildOps : List (OpType × ℝ × ℝ × ℝ × ℝ) → ℕ → (ℕ → ℝ) → ℕ →
    List Agent × ℕ
  | [], _, _, k => ([], k)
  | (ty, et, ps, ub, fp) :: rest, i, rng, k =>
    let a : Agent :=
      { id := i, type := ty, exit_threshold := et, price_sensitivity := ps,
        uptime := min 1.0 (ub + normalDraw 0 0.01 (rng k)), fraud_prob := fp,
        stake := 10000 + (randNat (rng (k + 1)) 20000 : ℤ),
        reputation := 0.0, active := true, seasons_active := 0 }
    let r := buildOps rest (i + 1) rng (k + 2)
    (a :: r.1, r.2)

/-- `create_operators(n, rng)`. -/
noncomputable def create_operators (n : ℕ) (rng : ℕ → ℝ) (k : ℕ) : List Agent × ℕ :=
  buildOps (typesFor n) 0 rng k

/-- `create_whales(rng)`: 5 whales, one `rng.random()` draw each. -/
noncomputable def create_whales (rng : ℕ → ℝ) (k : ℕ) : List Whale × ℕ :=
  ((List.range 5).map (fun i =>
    { idx := i, tokens := pyInt (TOTAL_SUPPLY * (0.02 + (rng (k + i)) * 0.03)),
      reputation := 0.0, selfish_prob := 0.3 }), k + 5)

/- ── Demand generator ─────────────────────────────────────────────────── -/

/-- `compute_demand`: daily fee revenue with superlinear network effects,
scenario shocks, multiplicative noise, floored at 50.  Consumes one draw. -/
noncomputable def compute_demand (t : ℕ) (N : ℕ) (scen : Scenario) (rng : ℕ → ℝ)
    (k : ℕ) (cost_mult : ℝ) : ℝ :=
  let annual_growth := scen.demand_growth_annual
  let daily_growth := (1 + annual_growth) ^ ((1 : ℝ) / 365) - 1
  let coverage := (N : ℝ) / N_TARGET
  let coverage_factor :=
    if coverage < 0.3 then coverage
    else if coverage < 0.8 then coverage ^ (1.3 : ℝ)
    else min (coverage ^ (1.5 : ℝ)) 2.0
  let base0 := 1000 * coverage_factor * (1 + daily_growth) ^ (t : ℝ)
  let sd := shockDay scen
  let base1 :=
    match scen.shock_kind with
    | some .demand_contraction =>
        if sd < t then base0 * max 0.3 (1 - 0.02 * (((t : ℝ) - sd) / 30)) else base0
    | some .cost_increase =>
        if sd < t then base0 * (1 / cost_mult) else base0
    | some .operator_poach =>
        if sd < t then base0 * (1 - min 0.30 (0.05 * (((t : ℝ) - sd) / 30))) else base0
    | none => base0
  let noise := 1 + normalDraw 0 0.05 (rng k)
  max 50 (base1 * noise)

/- ── Operator lifecycle update (`update_operators`) ───────────────────── -/

/-- Per-active-agent body of the `for a in active` loop: uptime jitter,
downtime slashing, fraud slashing, yield-based probabilistic exit, stake
floor.  Returns `(agent, slashed, fraud_captured, next draw index)`. -/
noncomputable def processAgent (a : Agent) (per_em per_fee op_cost P sd sf : ℝ)
    (rng : ℕ → ℝ) (k : ℕ) : Agent × ℤ × ℝ × ℕ :=
  let u := min 1.0 (max 0.5 (a.uptime + normalDraw 0 0.005 (rng k)))
  let k1 := k + 1
  let slash1 : ℤ := if u < 0.90 then pyInt ((a.stake : ℝ) * sd) else 0
  let stake1 := a.stake - slash1
  let fr :=
    if 0 < a.fraud_prob then
      if rng k1 < a.fraud_prob then
        if rng (k1 + 1) < 0.97 then (stake1 - pyInt ((stake1 : ℝ) * sf), pyInt ((stake1 : ℝ) * sf), (0 : ℝ), k1 + 2)
        else (stake1, 0, per_em * 0.1, k1 + 2)
      else (stake1, 0, 0, k1 + 1)
    else (stake1, 0, 0, k1)
  let stake2 := fr.1
  let daily_yield := (per_em + per_fee) * P - op_cost
  let exit_prob := if 2 ≤ a.seasons_active then EXIT_PROB_VETERAN else EXIT_PROB_BASE
  let ex :=
    if daily_yield < a.exit_threshold * OPPORTUNITY_COST then
      (if rng fr.2.2.2 < exit_prob then false else a.active, fr.2.2.2 + 1)
    else (a.active, fr.2.2.2)
  let active2 := if stake2 ≤ 0 then false else ex.1
  ({ a with uptime := u, stake := stake2, active := active2 },
   slash1 + fr.2.1, fr.2.2.1, ex.2)

/-- The `for a in active` pass: every active agent is processed in list
order (consuming its draws), inactive agents are untouched.
Returns `(agents, slashed, fraud_captured, next draw index)`. -/
noncomputable def opsPass (per_em per_fee op_cost P sd sf : ℝ) (rng : ℕ → ℝ) :
    List Agent → ℕ → List Agent × ℤ × ℝ × ℕ
  | [], k => ([], 0, 0, k)
  | a :: rest, k =>
    if a.active then
      let p := processAgent a per_em per_fee op_cost P sd sf rng k
      let r := opsPass per_em per_fee op_cost P sd sf rng rest p.2.2.2
      (p.1 :: r.1, p.2.1 + r.2.1, p.2.2.1 + r.2.2.1, r.2.2.2)
    else
      let r := opsPass per_em per_fee op_cost P sd sf rng rest k
      (a :: r.1, r.2.1, r.2.2.1, r.2.2.2)

/-- Treasury yield stabilization (1E): the model's whole-day subsidy.
Nonzero only when per-operator yield is under half the opportunity cost,
the treasury is over the 2%-of-supply floor, and the needed total is under
1% of the treasury (otherwise nothing is drawn). -/
noncomputable def treasurySubsidyAmt (per_op_yield_usd P T : ℝ) (active_count : ℕ) : ℝ :=
  if per_op_yield_usd < 0.5 * OPPORTUNITY_COST ∧ TOTAL_SUPPLY * 0.02 < T then
    let deficit_per_op := 0.5 * OPPORTUNITY_COST - per_op_yield_usd
    let subsidy_tokens := deficit_per_op / max P 0.001
    let total_subsidy := subsidy_tokens * active_count
    if total_subsidy < T * 0.01 then total_subsidy else 0
  else 0

/-- Entry taper: 100% at the target population, decreasing linearly to 0%
at 120% of target. -/
noncomputable def entry_factor (active_count : ℕ) : ℝ :=
  if 10000 < active_count then
    max 0.0 (1.0 - ((active_count : ℝ) - N_TARGET) / (N_TARGET * 0.2))
  else 1.0

/-- `base_new = min(int(active_count * 0.03), ENTRY_CAP_ABS)`. -/
noncomputable def base_new (active_count : ℕ) : ℤ :=
  min (pyInt ((active_count : ℝ) * 0.03)) ENTRY_CAP_ABS

/-- `new_count = max(0, int(base_new * entry_factor))`. -/
noncomputable def new_count (active_count : ℕ) : ℕ :=
  (max 0 (pyInt ((base_new active_count : ℝ) * entry_factor active_count))).toNat

/-- One appended entrant (six draws: type, exit threshold, price
sensitivity, uptime, fraud flag, stake). -/
noncomputable def mkEntrant (idx : ℕ) (rng : ℕ → ℝ) (k : ℕ) : Agent :=
  { id := idx,
    type := if rng k < 0.5 then OpType.high_commitment
            else if rng k < 0.85 then OpType.casual else OpType.mercenary,
    exit_threshold := if rng (k + 1) < 0.5 then 0.3
                      else if rng (k + 1) < 0.85 then 0.8 else 1.2,
    price_sensitivity := uniformDraw 0.2 0.9 (rng (k + 2)),
    uptime := 0.95 + normalDraw 0 0.02 (rng (k + 3)),
    fraud_prob := if rng (k + 4) < 0.15 then 0.15 else 0.0,
    stake := 10000 + (randNat (rng (k + 5)) 20000 : ℤ),
    reputation := 0.0, active := true, seasons_active := 0 }

/-- Append `n` entrants, each with `id = len(agents)` at its append. -/
noncomputable def appendEntrants (rng : ℕ → ℝ) : List Agent → ℕ → ℕ → List Agent × ℕ
  | agents, 0, k => (agents, k)
  | agents, n + 1, k => appendEntrants rng (agents ++ [mkEntrant agents.length rng k]) n (k + 6)

/-- The "New entrants" block: when token yield exceeds 2× opportunity cost,
append `new_count` entrants. -/
noncomputable def entryPhase (agents : List Agent) (per_em per_fee P : ℝ)
    (active_count : ℕ) (rng : ℕ → ℝ) (k : ℕ) : List Agent × ℕ :=
  if 2.0 * OPPORTUNITY_COST < (per_em + per_fee) * P then
    appendEntrants rng agents (new_count active_count) k
  else (agents, k)

/-- Deactivate (in list order) active non-high-commitment agents while the
poach budget lasts. -/
def poachGo : List Agent → ℕ → List Agent
  | [], _ => []
  | a :: rest, n =>
    if a.active ∧ a.type ≠ OpType.high_commitment ∧ n ≠ 0 then
      { a with active := false } :: poachGo rest (n - 1)
    else a :: poachGo rest n

/-- The operator-poach shock: fires only on the exact shock day. -/
noncomputable def poachPhase (agents : List Agent) (scen : Scenario) (t : ℕ)
    (active_count : ℕ) : List Agent :=
  match scen.shock_kind with
  | some .operator_poach =>
    if t = shockDay scen then
      poachGo agents (pyInt ((active_count : ℝ) * scen.poach_rate)).toNat
    else agents
  | _ => agents

structure OpsResult where
  agents : List Agent
  slashed : ℤ
  fraud_captured : ℝ
  treasury_subsidy : ℝ
  k : ℕ

/-- `update_operators`: staking/slashing, treasury stabilization, entry/exit
and the poach shock.  `N` is passed (as in the source) but unused. -/
noncomputable def update_operators (agents : List Agent) (E F_daily : ℝ) (N : ℕ)
    (P : ℝ) (scen : Scenario) (t : ℕ) (rng : ℕ → ℝ) (k : ℕ) (T : ℝ)
    (cost_mult : ℝ) (slash_downtime slash_fraud : Option ℝ) : OpsResult :=
  let sd := slash_downtime.getD SLASH_DOWNTIME
  let sf := slash_fraud.getD SLASH_FRAUD
  let ac := countActive agents
  if ac = 0 then ⟨agents, 0, 0, 0, k⟩
  else
    let per_em := E / max (ac : ℝ) 1
    let per_fee := F_daily * (1 - PROTOCOL_FEE) / max (ac : ℝ) 1
    let op_cost := (3.0 + normalDraw 0 0.5 (rng k)) * cost_mult
    let pass := opsPass per_em per_fee op_cost P sd sf rng agents (k + 1)
    let per_op_yield_usd := (per_em + per_fee) * P
    let subsidy := treasurySubsidyAmt per_op_yield_usd P T ac
    let ac2 := countActive pass.1
    let ent := entryPhase pass.1 per_em per_fee P ac2 rng pass.2.2.2
    let agents3 := poachPhase ent.1 scen t ac2
    ⟨agents3, pass.2.1, pass.2.2.1, subsidy, ent.2⟩

/- ── Reputation updater ───────────────────────────────────────────────── -/

/-- The per-active-agent quarterly update: season counter increments,
reputation gains 1.0 if uptime exceeded 0.99, decays 15%, capped at 5.0. -/
noncomputable def repUpd (a : Agent) : Agent :=
  if a.active then
    { a with seasons_active := a.seasons_active + 1,
             reputation := min ((a.reputation + (if 0.99 < a.uptime then 1.0 else 0.0))
               * (1 - 0.15)) 5.0 }
  else a

/-- `update_reputation`: no-op except on days `t` with `t % 90 == 0` and
`t ≠ 0` (the source also computes a median uptime it never uses, omitted). -/
noncomputable def update_reputation (agents : List Agent) (t : ℕ) : List Agent :=
  if t % 90 ≠ 0 ∨ t = 0 then agents
  else if countActive agents = 0 then agents
  else agents.map repUpd

/- ── Price process ────────────────────────────────────────────────────── -/

/-- `update_price`: Ornstein-Uhlenbeck update in log-price space, floored at
0.001.  Consumes one draw. -/
noncomputable def update_price (P F_daily C drift : ℝ) (rng : ℕ → ℝ) (k : ℕ) : ℝ :=
  let fundamental := max 0.01 (min 10.0 ((F_daily * 365) / max C 1 * 1000))
  let dW := normalDraw 0 1 (rng k)
  let logP := Real.log (max P 0.001)
  let logF := Real.log (max fundamental 0.001)
  let newLogP := logP + OU_KAPPA / 365 * (logF - logP) + OU_SIGMA * dW + drift
  max 0.001 (Real.exp newLogP)

/- ── Simulation driver (`run_simulation`) ─────────────────────────────── -/

structure RunConfig where
  scenario_name : String
  scen : Scenario
  use_pid : Bool
  seed : ℤ
  kp : Option ℝ := none
  ki : Option ℝ := none
  kd : Option ℝ := none
  slash_downtime : Option ℝ := none
  slash_fraud : Option ℝ := none

/-- The run's evolving state: `GlobalEconomicState`, the controller memory,
the agent population, the (never consulted) whales, and the draw counter. -/
structure SimState where
  C : ℝ
  T : ℝ
  N : ℕ
  F_daily : ℝ
  P : ℝ
  E : ℝ
  B : ℝ
  integral : ℝ
  prev_error : ℝ
  slashed_total : ℤ
  fraud_total : ℝ
  cost_mult : ℝ
  agents : List Agent
  whales : List Whale
  k : ℕ

/-- One output row (`records.append({...})` of `run_simulation`). -/
structure SimRecord where
  seed : ℤ
  run_id : String
  timestep : ℕ
  scenario_name : String
  emission_model : String
  N : ℕ
  E : ℝ
  B : ℝ
  F_daily : ℝ
  P : ℝ
  C : ℝ
  T : ℝ
  s2r : ℝ
  bme : ℝ
  slashed_total : ℤ
  fraud_captured_pct : ℝ
deriving Inhabited

/-- Initial state of `run_simulation` (population seeded from the stream). -/
noncomputable def initState (rng : ℕ → ℝ) : SimState :=
  let ops := create_operators 2000 rng 0
  let wh := create_whales rng ops.2
  { C := 200000000, T := 150000000, N := 2000, F_daily := 500.0, P := 0.10,
    E := BASE_EMISSION, B := 0.0, integral := 0.0, prev_error := 0.0,
    slashed_total := 0, fraud_total := 0.0, cost_mult := 1.0,
    agents := ops.1, whales := wh.1, k := wh.2 }

/-- Cost shock: the cost multiplier jumps on and after the shock day. -/
noncomputable def dayCostMult (cfg : RunConfig) (t : ℕ) (s : SimState) : ℝ :=
  match cfg.scen.shock_kind with
  | some .cost_increase => if shockDay cfg.scen ≤ t then cfg.scen.cost_multiplier else s.cost_mult
  | _ => s.cost_mult

/-- PSUB 2 as the driver runs it: PID when `use_pid` (keeping the old rate
on non-cadence days), static schedule otherwise.
Returns `(E, integral, prev_error)`. -/
noncomputable def dayEmission (cfg : RunConfig) (t : ℕ) (s : SimState) : ℝ × ℝ × ℝ :=
  if cfg.use_pid then
    match pid_emission s.N s.integral s.prev_error t cfg.kp cfg.ki cfg.kd with
    | (some e, i, p) => (e, i, p)
    | (none, _, _) => (s.E, s.integral, s.prev_error)
  else (static_emission t, s.integral, s.prev_error)

/-- PSUB 8, circulating supply: `clamp(C + E - B - slashed, 0, TOTAL_SUPPLY)`. -/
noncomputable def nextC (C E B : ℝ) (slashed : ℤ) : ℝ :=
  max 0 (min TOTAL_SUPPLY (C + E - B - (slashed : ℝ)))

/-- PSUB 8, treasury: `max(0, T + slashed - treas_subsidy)`. -/
noncomputable def nextT (T : ℝ) (slashed : ℤ) (subsidy : ℝ) : ℝ :=
  max 0 (T + (slashed : ℝ) - subsidy)

/-- Active node count, floored at 1. -/
def nextN (agents : List Agent) : ℕ := max 1 (countActive agents)

/-- One day of `run_simulation`'s loop: demand, emission, burn, operator
lifecycle, reputation, price, supply accounting, snapshot record. -/
noncomputable def step (cfg : RunConfig) (rng : ℕ → ℝ) (t : ℕ) (s : SimState) :
    SimState × SimRecord :=
  let cm := dayCostMult cfg t s
  let F := compute_demand t s.N cfg.scen rng s.k cm
  let e3 := dayEmission cfg t s
  let E := e3.1
  let B := burn_tokens F s.P
  let o := update_operators s.agents E F s.N s.P cfg.scen t rng (s.k + 1) s.T cm
    cfg.slash_downtime cfg.slash_fraud
  let agents2 := update_reputation o.agents t
  let P := update_price s.P F s.C cfg.scen.price_drift rng o.k
  let C := nextC s.C E B o.slashed
  let T := nextT s.T o.slashed o.treasury_subsidy
  let N := nextN agents2
  let bme := B / max E 1
  let st := s.slashed_total + o.slashed
  let ft := s.fraud_total + o.fraud_captured
  let model := if cfg.use_pid then "pid" else "static"
  ({ C := C, T := T, N := N, F_daily := F, P := P, E := E, B := B,
     integral := e3.2.1, prev_error := e3.2.2, slashed_total := st,
     fraud_total := ft, cost_mult := cm, agents := agents2,
     whales := s.whales, k := o.k + 1 },
   { seed := cfg.seed, run_id := cfg.scenario_name ++ "_" ++ model,
     timestep := t, scenario_name := cfg.scenario_name, emission_model := model,
     N := N, E := pyRound E 0, B := pyRound B 2, F_daily := pyRound F 2,
     P := pyRound P 6, C := pyRound C 0, T := pyRound T 0,
     s2r := pyRound bme 6, bme := pyRound bme 6, slashed_total := st,
     fraud_captured_pct := pyRound (ft / max (E * ((t : ℝ) + 1)) 1 * 100) 4 })

/-- The state after `t` loop iterations starting from `s0`. -/
noncomputable def stateFrom (cfg : RunConfig) (rng : ℕ → ℝ) (s0 : SimState) :
    ℕ → SimState
  | 0 => s0
  | t + 1 => (step cfg rng t (stateFrom cfg rng s0 t)).1

/-- The record emitted on day `t`, starting from `s0`. -/
noncomputable def recordFrom (cfg : RunConfig) (rng : ℕ → ℝ) (s0 : SimState)
    (t : ℕ) : SimRecord :=
  (step cfg rng t (stateFrom cfg rng s0 t)).2

/-- `run_simulation` given an initial state: the 1825 per-day records. -/
noncomputable def recordsFrom (cfg : RunConfig) (rng : ℕ → ℝ) (s0 : SimState) :
    List SimRecord :=
  (List.range TIMESTEPS).map (recordFrom cfg rng s0)

/-- `run_simulation(scenario_name, scenario, use_pid, seed, ...)`: the rng
stream is produced from the seed by the (abstract) seeded generator `gen`. -/
noncomputable def run_simulation (gen : ℤ → ℕ → ℝ) (cfg : RunConfig) : List SimRecord :=
  recordsFrom cfg (gen cfg.seed) (initState (gen cfg.seed))

/-- `run_simulation` with the whale agents' stored values overridden right
after creation (their creation draws stay consumed). -/
noncomputable def runWithWhales (gen : ℤ → ℕ → ℝ) (cfg : RunConfig)
    (w : List Whale) : List SimRecord :=
  recordsFrom cfg (gen cfg.seed) { initState (gen cfg.seed) with whales := w }

/- ── Ki rank-consistency harness (`multi_seed.py`, `ki_nonmonotonicity_test`)

The harness pivots the per-(Ki, seed) terminal populations into a table
(one row per seed, one column per Ki value), ranks each row descending,
takes the per-column modal rank, the per-column fraction of seeds agreeing
with it, the minimum of those fractions, and classifies.  We model that
reduction on the pivoted table of terminal populations. ───────────────── -/

/-- pandas `rank(axis=1, ascending=False)` (average method) of one row:
rank of `v` = (number strictly greater) + (ties including `v` + 1) / 2. -/
def pandasRankRow (row : List ℚ) : List ℚ :=
  row.map (fun v =>
    (row.countP (fun w => decide (v < w)) : ℚ) +
      ((row.countP (fun w => decide (w = v)) : ℚ) + 1) / 2)

/-- pandas column `mode().iloc[0]`: the most frequent value, smallest on a
tie. -/
def modeOf (l : List ℚ) : ℚ :=
  l.foldl (fun best v =>
    if l.count best < l.count v ∨ (l.count v = l.count best ∧ v < best) then v else best)
    (l.headD 0)

/-- Column `j` of the per-seed rankings of `table`. -/
def rankCol (table : List (List ℚ)) (j : ℕ) : List ℚ :=
  (table.map pandasRankRow).map (fun r => r.getD j 0)

/-- `(rankings == modal_rank).mean()` for column `j`: the fraction of seeds
whose rank for this Ki value equals the modal rank. -/
def consistencyFrac (table : List (List ℚ)) (j : ℕ) : ℚ :=
  let col := rankCol table j
  (col.countP (fun x => decide (x = modeOf col)) : ℚ) / (col.length : ℚ)

/-- `consistency.min()` over the Ki columns (fractions are ≤ 1, so the fold
base 1 is neutral). -/
def minConsistency (table : List (List ℚ)) : ℚ :=
  (((List.range (table.headD []).length).map (consistencyFrac table)).foldr min 1)

/-- The harness verdict: `"STRUCTURAL" if min_consistency > 0.60 else
"PATH-DEPENDENT"`. -/
def kiVerdict (table : List (List ℚ)) : String :=
  if 0.60 < minConsistency table then "STRUCTURAL" else "PATH-DEPENDENT"

/-- A pivoted terminal-population table whose minimum agreement fraction is
exactly 0.6: three seeds rank the five Ki values `1,2,3,4,5`, two seeds
swap the first two ranks. -/
def kiTable0 : List (List ℚ) :=
  [[5, 4, 3, 2, 1], [5, 4, 3, 2, 1], [5, 4, 3, 2, 1], [4, 5, 3, 2, 1], [4, 5, 3, 2, 1]]

/- ═══════════════════════ Theorems ═══════════════════════ -/

/- ── C6: Ki rank-consistency classification ───────────────────────────── -/

lemma consistencyFrac_kiTable0_0 : consistencyFrac kiTable0 0 = 3 / 5 := by
  norm_num [consistencyFrac, rankCol, kiTable0, pandasRankRow, modeOf,
    List.countP_cons, List.countP_nil, List.count_cons, List.count_nil,
    decide_eq_true_eq, List.getD, List.foldl_cons, List.foldl_nil]

lemma consistencyFrac_kiTable0_1 : consistencyFrac kiTable0 1 = 3 / 5 := by
  norm_num [consistencyFrac, rankCol, kiTable0, pandasRankRow, modeOf,
    List.countP_cons, List.countP_nil, List.count_cons, List.count_nil,
    decide_eq_true_eq, List.getD, List.foldl_cons, List.foldl_nil]

lemma consistencyFrac_kiTable0_2 : consistencyFrac kiTable0 2 = 1 := by
  norm_num [consistencyFrac, rankCol, kiTable0, pandasRankRow, modeOf,
    List.countP_cons, List.countP_nil, List.count_cons, List.count_nil,
    decide_eq_true_eq, List.getD, List.foldl_cons, List.foldl_nil]

lemma consistencyFrac_kiTable0_3 : consistencyFrac kiTable0 3 = 1 := by
  norm_num [consistencyFrac, rankCol, kiTable0, pandasRankRow, modeOf,
    List.countP_cons, List.countP_nil, List.count_cons, List.count_nil,
    decide_eq_true_eq, List.getD, List.foldl_cons, List.foldl_nil]

lemma consistencyFrac_kiTable0_4 : consistencyFrac kiTable0 4 = 1 := by
  norm_num [consistencyFrac, rankCol, kiTable0, pandasRankRow, modeOf,
    List.countP_cons, List.countP_nil, List.count_cons, List.count_nil,
    decide_eq_true_eq, List.getD, List.foldl_cons, List.foldl_nil]

lemma minConsistency_kiTable0 : minConsistency kiTable0 = 3 / 5 := by
  have h : (kiTable0.headD []).length = 5 := by norm_num [kiTable0]
  rw [minConsistency, h, show List.range 5 = [0, 1, 2, 3, 4] from rfl]
  simp only [List.map_cons, List.map_nil, List.foldr_cons, List.foldr_nil,
    consistencyFrac_kiTable0_0, consistencyFrac_kiTable0_1, consistencyFrac_kiTable0_2,
    consistencyFrac_kiTable0_3, consistencyFrac_kiTable0_4]
  norm_num [min_def]

lemma kiVerdict_kiTable0 : kiVerdict kiTable0 = "PATH-DEPENDENT" := by
  rw [kiVerdict, minConsistency_kiTable0]
  norm_num

/-- C6 counterexample: the claim classifies "structural" whenever the
agreement fraction is at least 0.6, but at an agreement fraction of exactly
0.6 (table `kiTable0`: 3 of 5 seeds agree with the modal ranking on the
first two Ki columns) the harness's strict `> 0.60` test classifies
"PATH-DEPENDENT". -/
theorem ki_threshold_claim_false :
    ¬ (∀ table : List (List ℚ), 3 / 5 ≤ minConsistency table →
        kiVerdict table = "STRUCTURAL") := by
  intro h
  have h1 := h kiTable0 (le_of_eq minConsistency_kiTable0.symm)
  rw [kiVerdict_kiTable0] at h1
  exact absurd h1 (by decide)

/-- C6 (amended): the Ki rank-consistency harness classifies "STRUCTURAL"
exactly when the minimum modal-rank agreement fraction over the Ki columns
strictly exceeds 0.6, and "PATH-DEPENDENT" when it is ≤ 0.6 (so a fraction
of exactly 0.6, as in `kiTable0`, is path-dependent). -/
theorem ki_rank_consistency_classification :
    (∀ table : List (List ℚ), 3 / 5 < minConsistency table →
        kiVerdict table = "STRUCTURAL") ∧
    (∀ table : List (List ℚ), minConsistency table ≤ 3 / 5 →
        kiVerdict table = "PATH-DEPENDENT") ∧
    minConsistency kiTable0 = 3 / 5 ∧ kiVerdict kiTable0 = "PATH-DEPENDENT" := by
  refine ⟨fun table h => ?_, fun table h => ?_,
    minConsistency_kiTable0, kiVerdict_kiTable0⟩
  · rw [kiVerdict, if_pos (by rw [show (0.60 : ℚ) = 3 / 5 by norm_num]; exact h)]
  · rw [kiVerdict, if_neg (by rw [show (0.60 : ℚ) = 3 / 5 by norm_num]; exact not_lt.mpr h)]

/- ── C3: PID controller ───────────────────────────────────────────────── -/

/-- C3: the PID controller is a no-op (rate update `none`, integral and
previous error returned unchanged) on every day with `t % 14 ≠ 0`; on
cadence days it returns the error `(10000 − N)/10000`, the integral clamped
to `[−5, 5]`, and the rate `clamp(109589 + 109589·(Kp·error + Ki·integral +
Kd·derivative), 27397, 328767)`; and with `N = 20000`, `Kp = 0.8` and zero
integral and derivative contributions the returned rate is exactly 27397. -/
theorem pid_controller_spec :
    (∀ (N : ℕ) (integral prev : ℝ) (t : ℕ) (kp ki kd : Option ℝ),
      pid_emission N integral prev t kp ki kd =
        if t % 14 = 0 then
          (some (max 27397 (min 328767 (109589 + 109589 *
            ((kp.getD 0.8) * ((10000 - N) / 10000) +
             (ki.getD 0.15) * (max (-5) (min 5 (integral + (10000 - N) / 10000))) +
             (kd.getD 0.2) * ((10000 - N) / 10000 - prev))))),
           max (-5) (min 5 (integral + (10000 - N) / 10000)),
           (10000 - (N : ℝ)) / 10000)
        else (none, integral, prev)) ∧
    (pid_emission 20000 0 0 0 (some 0.8) (some 0) (some 0)).1 = some 27397 := by
  constructor
  · intro N integral prev t kp ki kd
    by_cases h : t % 14 = 0
    · simp [pid_emission, PID_CADENCE, h, N_TARGET, BASE_EMISSION, PID_MIN, PID_MAX,
        KP_NORM, KI_NORM, KD_NORM]
      norm_num
    · simp [pid_emission, PID_CADENCE, h]
  · norm_num [pid_emission, PID_CADENCE, N_TARGET, BASE_EMISSION, PID_MIN, PID_MAX,
      min_def, max_def]

/- ── C4: entry admission ──────────────────────────────────────────────── -/

lemma appendEntrants_length (rng : ℕ → ℝ) :
    ∀ (n : ℕ) (agents : List Agent) (k : ℕ),
      ((appendEntrants rng agents n k).1).length = agents.length + n := by
  intro n
  induction n with
  | zero => intro agents k; simp [appendEntrants]
  | succ m ih =>
    intro agents k
    rw [appendEntrants, ih]
    simp
    omega

lemma base_new_nonneg (ac : ℕ) : 0 ≤ base_new ac := by
  have h : 0 ≤ pyInt ((ac : ℝ) * 0.03) := by
    rw [pyInt, if_pos (by positivity)]
    exact Int.floor_nonneg.mpr (by positivity)
  simp only [base_new]
  exact le_min h (by norm_num [ENTRY_CAP_ABS])

lemma entry_factor_nonneg (ac : ℕ) : 0 ≤ entry_factor ac := by
  rw [entry_factor]
  split
  · have h := le_max_left (0.0 : ℝ) (1.0 - ((ac : ℝ) - N_TARGET) / (N_TARGET * 0.2))
    linarith
  · norm_num

/-- C4: when token yield exceeds 2x the opportunity cost the entry block
appends exactly `new_count` operators, where `new_count` is
`int(min(int(0.03 * active_count), 30) * entry_factor)` with the taper
factor 1 at or below the 10000 target and `max(0, 1 - (ac - 10000)/2000)`
above it; at 500 actives 15 entrants are admitted before tapering, and at
11000 actives the realized count is half the uncapped 30, rounded down. -/
theorem entry_admission_spec :
    (∀ (agents : List Agent) (per_em per_fee P : ℝ) (ac k : ℕ) (rng : ℕ → ℝ),
      ((entryPhase agents per_em per_fee P ac rng k).1).length =
        agents.length +
          (if 2.0 * OPPORTUNITY_COST < (per_em + per_fee) * P then new_count ac else 0)) ∧
    (∀ ac : ℕ, new_count ac =
        (pyInt ((base_new ac : ℝ) * entry_factor ac)).toNat) ∧
    base_new 500 = 15 ∧ new_count 500 = 15 ∧
    base_new 11000 = 30 ∧ entry_factor 11000 = 1 / 2 ∧ new_count 11000 = 15 := by
  have hbf : ∀ ac : ℕ, 0 ≤ pyInt ((base_new ac : ℝ) * entry_factor ac) := by
    intro ac
    have h1 : (0:ℝ) ≤ (base_new ac : ℝ) * entry_factor ac :=
      mul_nonneg (by exact_mod_cast base_new_nonneg ac) (entry_factor_nonneg ac)
    rw [pyInt, if_pos h1]
    exact Int.floor_nonneg.mpr h1
  refine ⟨?_, ?_, ?_, ?_, ?_, ?_, ?_⟩
  · intro agents per_em per_fee P ac k rng
    rw [entryPhase]
    split
    · rw [appendEntrants_length]
    · simp
  · intro ac
    rw [new_count, max_eq_right (hbf ac)]
  · norm_num [base_new, pyInt, ENTRY_CAP_ABS]
  · norm_num [new_count, base_new, entry_factor, pyInt, ENTRY_CAP_ABS, N_TARGET]
    decide
  · norm_num [base_new, pyInt, ENTRY_CAP_ABS]
  · norm_num [entry_factor, N_TARGET]
  · norm_num [new_count, base_new, entry_factor, pyInt, ENTRY_CAP_ABS, N_TARGET]
    decide

/- ── C5: treasury stabilization ───────────────────────────────────────── -/

/-- C5 (amended): the treasury stabilization subsidy is always at most 1%
of the treasury (given a nonnegative treasury); it is zero whenever yield is
not below half the opportunity cost or the treasury is not above the 2%
reserve floor; whenever it is nonzero it tops per-operator yield up to
exactly half the opportunity cost — it equals that full top-up need only
when the need is below 1% of the treasury, and is zero (not clamped)
otherwise; and the day's supply accounting decreases T by exactly the
subsidy. -/
theorem treasury_subsidy_spec :
    ∀ (y P T : ℝ) (ac : ℕ) (slashed : ℤ),
      (0 ≤ T → treasurySubsidyAmt y P T ac ≤ 0.01 * T) ∧
      (¬ (y < 0.5 * OPPORTUNITY_COST ∧ TOTAL_SUPPLY * 0.02 < T) →
        treasurySubsidyAmt y P T ac = 0) ∧
      (treasurySubsidyAmt y P T ac ≠ 0 →
        y + treasurySubsidyAmt y P T ac * max P 0.001 / ac = 0.5 * OPPORTUNITY_COST) ∧
      (0 ≤ T + (slashed : ℝ) - treasurySubsidyAmt y P T ac →
        nextT T slashed (treasurySubsidyAmt y P T ac) =
          T + (slashed : ℝ) - treasurySubsidyAmt y P T ac) := by
  intro y P T ac slashed
  refine ⟨?_, ?_, ?_, ?_⟩
  · intro hT
    simp only [treasurySubsidyAmt]
    split
    · split
      · next h2 => linarith
      · linarith
    · linarith
  · intro h
    simp only [treasurySubsidyAmt]
    rw [if_neg h]
  · intro h
    simp only [treasurySubsidyAmt] at h ⊢
    by_cases h1 : y < 0.5 * OPPORTUNITY_COST ∧ TOTAL_SUPPLY * 0.02 < T
    · rw [if_pos h1] at h ⊢
      by_cases h2 : (0.5 * OPPORTUNITY_COST - y) / max P 0.001 * (ac : ℝ) < T * 0.01
      · rw [if_pos h2] at h ⊢
        have hac : (ac : ℝ) ≠ 0 := by
          intro h0
          exact h (by rw [h0, mul_zero])
        have hP : max P 0.001 ≠ 0 := by positivity
        field_simp
      · rw [if_neg h2] at h
        exact absurd rfl h
    · rw [if_neg h1] at h
      exact absurd rfl h
  · intro h
    rw [nextT, max_eq_right h]

/-- C5 counterexample: a day with per-operator yield 0 (< 2.5), treasury
21,000,000 (> 2% of supply) and 100,000 active operators at price 1 needs a
250,000-token top-up, above the 1%-of-treasury cap of 210,000 — the code
then draws no subsidy at all, so the yield is not topped up to half the
opportunity cost as the claim states. -/
theorem treasury_subsidy_claim_false :
    treasurySubsidyAmt 0 1 21000000 100000 = 0 ∧
    (0 : ℝ) < 0.5 * OPPORTUNITY_COST ∧ TOTAL_SUPPLY * 0.02 < 21000000 ∧
    ¬ (0 + treasurySubsidyAmt 0 1 21000000 100000 * max 1 0.001 / ((100000 : ℕ) : ℝ) =
        0.5 * OPPORTUNITY_COST) := by
  have hmax : max (1 : ℝ) 0.001 = 1 := by norm_num
  have h0 : treasurySubsidyAmt 0 1 21000000 100000 = 0 := by
    simp only [treasurySubsidyAmt, hmax]
    rw [if_pos (by norm_num [OPPORTUNITY_COST, TOTAL_SUPPLY]),
      if_neg (by norm_num [OPPORTUNITY_COST])]
  refine ⟨h0, by norm_num [OPPORTUNITY_COST], by norm_num [TOTAL_SUPPLY], ?_⟩
  rw [h0]
  norm_num [OPPORTUNITY_COST]

/- ── C7: reputation updater ───────────────────────────────────────────── -/

/-- The quarterly per-agent update exactly as the claim words it: an active
agent's season counter goes up by one and its reputation becomes
`min(5.0, (reputation + (1.0 if uptime > 0.99 else 0.0)) * 0.85)`. -/
noncomputable def repClaimUpd (a : Agent) : Agent :=
  if a.active then
    { a with seasons_active := a.seasons_active + 1,
             reputation := min 5.0 ((a.reputation +
               (if 0.99 < a.uptime then 1.0 else 0.0)) * 0.85) }
  else a

lemma repUpd_eq_repClaimUpd : repUpd = repClaimUpd := by
  funext a
  rw [repUpd, repClaimUpd]
  split
  · rw [min_comm]
    norm_num
  · rfl

lemma map_repUpd_of_no_active (agents : List Agent) (h : countActive agents = 0) :
    agents.map repUpd = agents := by
  have h1 : ∀ a ∈ agents, ¬(a.active = true) := List.countP_eq_zero.mp h
  have h2 : ∀ a ∈ agents, repUpd a = id a := by
    intro a ha
    rw [repUpd, if_neg (h1 a ha)]
    rfl
  rw [List.map_congr_left h2, List.map_id]

/-- C7 (amended): the reputation updater is the identity on every day
except those with `t % 90 = 0` and `t ≠ 0`; on those days every active
operator is updated by the claim's formula (seasons + 1, reputation
`min(5.0, (rep + inc) * 0.85)`) and inactive operators are untouched. -/
theorem reputation_update_spec :
    ∀ (agents : List Agent) (t : ℕ),
      update_reputation agents t =
        if t % 90 = 0 ∧ t ≠ 0 then agents.map repClaimUpd else agents := by
  intro agents t
  rw [update_reputation, ← repUpd_eq_repClaimUpd]
  by_cases h1 : t % 90 = 0 ∧ t ≠ 0
  · rw [if_pos h1, if_neg (by push_neg; exact ⟨h1.1, h1.2⟩)]
    by_cases h0 : countActive agents = 0
    · rw [if_pos h0, map_repUpd_of_no_active agents h0]
    · rw [if_neg h0]
  · rw [if_neg h1, if_pos (by omega)]

def agent0 : Agent :=
  { id := 0, type := .casual, exit_threshold := 0.8, price_sensitivity := 0.6,
    uptime := 1.0, fraud_prob := 0.0, stake := 10000, reputation := 0.0,
    active := true, seasons_active := 0 }

/-- C7 counterexample: day 0 satisfies `0 % 90 = 0`, but the updater
explicitly skips `t == 0` — an active agent's season counter stays 0 where
the claim requires it to become 1. -/
theorem reputation_t0_claim_false :
    ¬ (∀ (agents : List Agent) (t : ℕ), t % 90 = 0 →
        update_reputation agents t = agents.map repClaimUpd) := by
  intro h
  have h1 := h [agent0] 0 rfl
  have h2 : update_reputation [agent0] 0 = [agent0] := by
    rw [update_reputation, if_pos (Or.inr rfl)]
  rw [h2] at h1
  have h3 := congrArg (fun l => (l.headD agent0).seasons_active) h1
  simp [repClaimUpd, agent0] at h3

/- ── C2 and C9: determinism and the dead whale population ─────────────── -/

/-- A constant draw stream, for instantiating universally quantified
theorems at a concrete input. -/
noncomputable def zeroGen : ℤ → ℕ → ℝ := fun _ _ => 0

/-- The bear-scenario PID run configuration at the default seed. -/
noncomputable def bearPidConfig : RunConfig :=
  { scenario_name := "bear", scen := bear, use_pid := true, seed := 42 }

/-- C2: `run_simulation` is a pure function of (seed, scenario, policy,
gains, penalties): two invocations with identical arguments produce the
same 1825-record sequence, so every field of every per-day record is equal
and the output tables are identical. -/
theorem run_determinism :
    ∀ (gen : ℤ → ℕ → ℝ) (cfg1 cfg2 : RunConfig), cfg1 = cfg2 →
      run_simulation gen cfg1 = run_simulation gen cfg2 ∧
      (run_simulation gen cfg1).length = TIMESTEPS ∧
      ∀ t : ℕ, (run_simulation gen cfg1).getD t default =
        (run_simulation gen cfg2).getD t default := by
  intro gen cfg1 cfg2 h
  subst h
  refine ⟨rfl, ?_, fun t => rfl⟩
  rw [run_simulation, recordsFrom, List.length_map, List.length_range]

/-- C2 witness: the determinism theorem applied to the bear/PID
configuration under a concrete stream. -/
theorem run_determinism_witness :
    run_simulation zeroGen bearPidConfig = run_simulation zeroGen bearPidConfig ∧
    (run_simulation zeroGen bearPidConfig).length = TIMESTEPS ∧
    ∀ t : ℕ, (run_simulation zeroGen bearPidConfig).getD t default =
      (run_simulation zeroGen bearPidConfig).getD t default :=
  run_determinism zeroGen bearPidConfig bearPidConfig rfl

lemma step_whales (cfg : RunConfig) (rng : ℕ → ℝ) (t : ℕ) (s : SimState)
    (w : List Whale) :
    step cfg rng t { s with whales := w } =
      ({ (step cfg rng t s).1 with whales := w }, (step cfg rng t s).2) := rfl

lemma stateFrom_whales (cfg : RunConfig) (rng : ℕ → ℝ) (s0 : SimState)
    (w : List Whale) : ∀ t : ℕ,
    stateFrom cfg rng { s0 with whales := w } t =
      { stateFrom cfg rng s0 t with whales := w } := by
  intro t
  induction t with
  | zero => rfl
  | succ m ih =>
    show (step cfg rng m (stateFrom cfg rng { s0 with whales := w } m)).1 = _
    rw [ih, step_whales]
    rfl

/-- C9: the whale population is dead state — two runs identical except for
the whale field values recorded after creation (token balance, reputation,
selfish probability) emit exactly the same record sequence. -/
theorem whales_never_consulted :
    ∀ (gen : ℤ → ℕ → ℝ) (cfg : RunConfig) (w1 w2 : List Whale),
      runWithWhales gen cfg w1 = runWithWhales gen cfg w2 := by
  intro gen cfg w1 w2
  rw [runWithWhales, runWithWhales, recordsFrom, recordsFrom]
  apply List.map_congr_left
  intro t _
  simp only [recordFrom, stateFrom_whales, step_whales]

/- ── C1: per-day state invariants ─────────────────────────────────────── -/

lemma le_round_cast_of_le {a : ℤ} {x : ℝ} (h : (a : ℝ) ≤ x) :
    (a : ℝ) ≤ ((round x : ℤ) : ℝ) := by
  have h1 : a ≤ round x := by
    rw [round_eq]
    exact Int.le_floor.mpr (by push_cast; linarith)
  exact_mod_cast h1

lemma round_cast_le_of_le {b : ℤ} {x : ℝ} (h : x ≤ (b : ℝ)) :
    ((round x : ℤ) : ℝ) ≤ (b : ℝ) := by
  have h1 : round x ≤ b := by
    rw [round_eq]
    have : ⌊x + 1 / 2⌋ < b + 1 := Int.floor_lt.mpr (by push_cast; linarith)
    omega
  exact_mod_cast h1

lemma pyRound_zero (x : ℝ) : pyRound x 0 = ((round x : ℤ) : ℝ) := by
  simp [pyRound]

lemma pyRound_zero_bounds {a b : ℤ} {x : ℝ} (h1 : (a : ℝ) ≤ x) (h2 : x ≤ (b : ℝ)) :
    (a : ℝ) ≤ pyRound x 0 ∧ pyRound x 0 ≤ (b : ℝ) := by
  rw [pyRound_zero]
  exact ⟨le_round_cast_of_le h1, round_cast_le_of_le h2⟩

lemma pyRound_six_pos {x : ℝ} (h : 0.001 ≤ x) : 0 < pyRound x 6 := by
  rw [pyRound]
  have h1 : (1000 : ℝ) ≤ x * 10 ^ 6 := by nlinarith
  have h2 : ((1000 : ℤ) : ℝ) ≤ ((round (x * 10 ^ 6) : ℤ) : ℝ) :=
    le_round_cast_of_le (by push_cast; linarith)
  have h3 : (0 : ℝ) < ((round (x * 10 ^ 6) : ℤ) : ℝ) := by push_cast at h2 ⊢; linarith
  positivity

lemma nextC_nonneg (C E B : ℝ) (sl : ℤ) : 0 ≤ nextC C E B sl := le_max_left 0 _

lemma nextC_le (C E B : ℝ) (sl : ℤ) : nextC C E B sl ≤ TOTAL_SUPPLY :=
  max_le (by norm_num [TOTAL_SUPPLY]) (min_le_left _ _)

lemma nextT_nonneg (T : ℝ) (sl : ℤ) (sub : ℝ) : 0 ≤ nextT T sl sub := le_max_left 0 _

lemma nextN_pos (agents : List Agent) : 1 ≤ nextN agents := le_max_left 1 _

lemma update_price_pos (P F C drift : ℝ) (rng : ℕ → ℝ) (k : ℕ) :
    0.001 ≤ update_price P F C drift rng k := by
  rw [update_price]
  exact le_max_left _ _

def EInv (s : SimState) : Prop := PID_MIN ≤ s.E ∧ s.E ≤ PID_MAX

lemma pid_emission_some_bounds {N : ℕ} {integral prev : ℝ} {t : ℕ}
    {kp ki kd : Option ℝ} {e i2 p2 : ℝ}
    (h : pid_emission N integral prev t kp ki kd = (some e, i2, p2)) :
    PID_MIN ≤ e ∧ e ≤ PID_MAX := by
  rw [pid_emission] at h
  split at h
  · simp at h
  · simp only [Prod.mk.injEq, Option.some.injEq] at h
    obtain ⟨he, -, -⟩ := h
    rw [← he]
    exact ⟨le_max_left _ _, max_le (by norm_num [PID_MIN, PID_MAX]) (min_le_left _ _)⟩

lemma dayEmission_pid_bounds (cfg : RunConfig) (t : ℕ) (s : SimState)
    (hpid : cfg.use_pid = true) (hE : EInv s) :
    PID_MIN ≤ (dayEmission cfg t s).1 ∧ (dayEmission cfg t s).1 ≤ PID_MAX := by
  rw [dayEmission, if_pos hpid]
  rcases hp : pid_emission s.N s.integral s.prev_error t cfg.kp cfg.ki cfg.kd with ⟨oe, i2, p2⟩
  cases oe with
  | none => simp only [hp]; exact hE
  | some e => simp only [hp]; exact pid_emission_some_bounds hp

lemma static_emission_bounds {t : ℕ} (h : t ≤ 1824) :
    PID_MIN ≤ static_emission t ∧ static_emission t ≤ PID_MAX := by
  rw [static_emission]
  have h05 : (0 : ℝ) < 0.95 := by norm_num
  have hexp0 : (0 : ℝ) ≤ (t : ℝ) / 365 := by positivity
  have hle1 : (0.95 : ℝ) ^ ((t : ℝ) / 365) ≤ 1 :=
    Real.rpow_le_one (by norm_num) (by norm_num) hexp0
  have hge : (0.95 : ℝ) ^ (5 : ℝ) ≤ (0.95 : ℝ) ^ ((t : ℝ) / 365) := by
    apply Real.rpow_le_rpow_of_exponent_ge h05 (by norm_num)
    have ht : (t : ℝ) ≤ 1824 := by exact_mod_cast h
    linarith
  have h5 : (0.95 : ℝ) ^ (5 : ℝ) = (0.95 : ℝ) ^ (5 : ℕ) := by
    rw [← Real.rpow_natCast]
    norm_num
  have hval : (0.95 : ℝ) ^ (5 : ℕ) = 0.7737809375 := by norm_num
  rw [h5, hval] at hge
  have hpos : (0 : ℝ) ≤ (0.95 : ℝ) ^ ((t : ℝ) / 365) := by positivity
  constructor
  · rw [PID_MIN, BASE_EMISSION]
    nlinarith
  · rw [PID_MAX, BASE_EMISSION]
    nlinarith

lemma EInv_stateFrom (cfg : RunConfig) (rng : ℕ → ℝ) (hpid : cfg.use_pid = true) :
    ∀ t : ℕ, EInv (stateFrom cfg rng (initState rng) t) := by
  intro t
  induction t with
  | zero =>
    have h0 : (stateFrom cfg rng (initState rng) 0).E = BASE_EMISSION := rfl
    rw [EInv, h0, BASE_EMISSION, PID_MIN, PID_MAX]
    norm_num
  | succ m ih =>
    have e1 : stateFrom cfg rng (initState rng) (m + 1) =
        (step cfg rng m (stateFrom cfg rng (initState rng) m)).1 := rfl
    have e2 : ((step cfg rng m (stateFrom cfg rng (initState rng) m)).1).E =
        (dayEmission cfg m (stateFrom cfg rng (initState rng) m)).1 := rfl
    rw [EInv, e1, e2]
    exact dayEmission_pid_bounds cfg m _ hpid ih

lemma pyRound_zero_nonneg {x : ℝ} (h : 0 ≤ x) : 0 ≤ pyRound x 0 := by
  have h1 := le_round_cast_of_le (a := 0) (x := x) (by push_cast; linarith)
  rw [pyRound_zero]
  push_cast at h1 ⊢
  linarith

lemma pyRound_zero_le_supply {x : ℝ} (h : x ≤ TOTAL_SUPPLY) : pyRound x 0 ≤ TOTAL_SUPPLY := by
  have h1 := round_cast_le_of_le (b := 1000000000) (x := x)
    (by rw [TOTAL_SUPPLY] at h; push_cast; linarith)
  rw [pyRound_zero, TOTAL_SUPPLY]
  push_cast at h1 ⊢
  linarith

lemma pyRound_zero_emission_bounds {x : ℝ} (h1 : PID_MIN ≤ x) (h2 : x ≤ PID_MAX) :
    PID_MIN ≤ pyRound x 0 ∧ pyRound x 0 ≤ PID_MAX := by
  have ha := le_round_cast_of_le (a := 27397) (x := x)
    (by rw [PID_MIN] at h1; push_cast; linarith)
  have hb := round_cast_le_of_le (b := 328767) (x := x)
    (by rw [PID_MAX] at h2; push_cast; linarith)
  rw [pyRound_zero, PID_MIN, PID_MAX]
  push_cast at ha hb ⊢
  exact ⟨by linarith, by linarith⟩

lemma step_record_CTNP (cfg : RunConfig) (rng : ℕ → ℝ) (t : ℕ) (s : SimState) :
    0 ≤ ((step cfg rng t s).2).C ∧ ((step cfg rng t s).2).C ≤ TOTAL_SUPPLY ∧
    0 ≤ ((step cfg rng t s).2).T ∧ 1 ≤ ((step cfg rng t s).2).N ∧
    0 < ((step cfg rng t s).2).P := by
  simp only [step]
  exact ⟨pyRound_zero_nonneg (nextC_nonneg _ _ _ _),
    pyRound_zero_le_supply (nextC_le _ _ _ _),
    pyRound_zero_nonneg (nextT_nonneg _ _ _),
    nextN_pos _, pyRound_six_pos (update_price_pos _ _ _ _ _ _)⟩

lemma step_record_E (cfg : RunConfig) (rng : ℕ → ℝ) (t : ℕ) (s : SimState) :
    ((step cfg rng t s).2).E = pyRound ((dayEmission cfg t s).1) 0 := rfl

/-- C1: in every run configuration (scenario, pid-or-static policy, seed,
gains, slashing penalties) and for every draw stream, the record of every
day `t < 1825` satisfies `0 ≤ C ≤ TOTAL_SUPPLY`, `T ≥ 0`, `N ≥ 1`, `P > 0`
and `E_min ≤ E ≤ E_max` — under the PID policy by clamping and rate
persistence, and under the unclamped static schedule because
`0.95 ^ (t/365)` stays within `[0.25, 3]` of base for all `t ≤ 1824`. -/
theorem state_invariants :
    ∀ (gen : ℤ → ℕ → ℝ) (cfg : RunConfig) (t : ℕ), t < TIMESTEPS →
      0 ≤ ((run_simulation gen cfg).getD t default).C ∧
      ((run_simulation gen cfg).getD t default).C ≤ TOTAL_SUPPLY ∧
      0 ≤ ((run_simulation gen cfg).getD t default).T ∧
      1 ≤ ((run_simulation gen cfg).getD t default).N ∧
      0 < ((run_simulation gen cfg).getD t default).P ∧
      PID_MIN ≤ ((run_simulation gen cfg).getD t default).E ∧
      ((run_simulation gen cfg).getD t default).E ≤ PID_MAX := by
  intro gen cfg t ht
  have hget : (run_simulation gen cfg).getD t default =
      recordFrom cfg (gen cfg.seed) (initState (gen cfg.seed)) t := by
    rw [run_simulation, recordsFrom]
    rw [List.getD_eq_getElem _ _ (by simpa [TIMESTEPS] using ht)]
    rw [List.getElem_map, List.getElem_range]
  rw [hget, recordFrom]
  obtain ⟨h1, h2, h3, h4, h5⟩ :=
    step_record_CTNP cfg (gen cfg.seed) t (stateFrom cfg (gen cfg.seed) (initState (gen cfg.seed)) t)
  refine ⟨h1, h2, h3, h4, h5, ?_⟩
  rw [step_record_E]
  by_cases hpid : cfg.use_pid = true
  · exact pyRound_zero_emission_bounds
      (dayEmission_pid_bounds cfg t _ hpid (EInv_stateFrom cfg _ hpid t)).1
      (dayEmission_pid_bounds cfg t _ hpid (EInv_stateFrom cfg _ hpid t)).2
  · have hst : (dayEmission cfg t (stateFrom cfg (gen cfg.seed) (initState (gen cfg.seed)) t)).1 =
        static_emission t := by
      rw [dayEmission, if_neg hpid]
    rw [hst]
    have hb := static_emission_bounds (t := t) (by simp [TIMESTEPS] at ht; omega)
    exact pyRound_zero_emission_bounds hb.1 hb.2

/-- C1 witness: the invariant theorem instantiated at day 3 of the
bear/PID configuration under a concrete stream. -/
theorem state_invariants_witness :
    0 ≤ ((run_simulation zeroGen bearPidConfig).getD 3 default).C ∧
    ((run_simulation zeroGen bearPidConfig).getD 3 default).C ≤ TOTAL_SUPPLY ∧
    0 ≤ ((run_simulation zeroGen bearPidConfig).getD 3 default).T ∧
    1 ≤ ((run_simulation zeroGen bearPidConfig).getD 3 default).N ∧
    0 < ((run_simulation zeroGen bearPidConfig).getD 3 default).P ∧
    PID_MIN ≤ ((run_simulation zeroGen bearPidConfig).getD 3 default).E ∧
    ((run_simulation zeroGen bearPidConfig).getD 3 default).E ≤ PID_MAX :=
  state_invariants zeroGen bearPidConfig 3 (by norm_num [TIMESTEPS])

/- ── C8 and C10: operator lifecycle invariants ────────────────────────── -/

lemma pyInt_mul_bounds {s : ℤ} {r : ℝ} (hst : 0 ≤ s) (h0 : 0 ≤ r) (h1 : r ≤ 1) :
    0 ≤ pyInt ((s : ℝ) * r) ∧ pyInt ((s : ℝ) * r) ≤ s := by
  have hx : (0 : ℝ) ≤ (s : ℝ) * r := mul_nonneg (by exact_mod_cast hst) h0
  rw [pyInt, if_pos hx]
  refine ⟨Int.floor_nonneg.mpr hx, ?_⟩
  have hle : (s : ℝ) * r ≤ (s : ℝ) := by nlinarith [(by exact_mod_cast hst : (0 : ℝ) ≤ (s : ℝ))]
  calc ⌊(s : ℝ) * r⌋ ≤ ⌊((s : ℤ) : ℝ)⌋ := Int.floor_mono hle
    _ = s := Int.floor_intCast s

lemma processAgent_facts (a : Agent) (per_em per_fee op_cost P sd sf : ℝ)
    (rng : ℕ → ℝ) (k : ℕ) (hsd0 : 0 ≤ sd) (hsd1 : sd ≤ 1)
    (hsf0 : 0 ≤ sf) (hsf1 : sf ≤ 1) (hst : 0 ≤ a.stake) :
    ((processAgent a per_em per_fee op_cost P sd sf rng k).1).id = a.id ∧
    0 ≤ ((processAgent a per_em per_fee op_cost P sd sf rng k).1).stake ∧
    (((processAgent a per_em per_fee op_cost P sd sf rng k).1).active = true →
      a.active = true) ∧
    0.5 ≤ ((processAgent a per_em per_fee op_cost P sd sf rng k).1).uptime ∧
    ((processAgent a per_em per_fee op_cost P sd sf rng k).1).uptime ≤ 1 := by
  have hA := pyInt_mul_bounds (s := a.stake) (r := sd) hst hsd0 hsd1
  have hB := pyInt_mul_bounds (s := a.stake - pyInt ((a.stake : ℝ) * sd)) (r := sf)
    (by omega) hsf0 hsf1
  have hC := pyInt_mul_bounds (s := a.stake - 0) (r := sf) (by omega) hsf0 hsf1
  simp only [processAgent]
  split_ifs <;> dsimp only <;>
    exact ⟨by trivial, by omega, by simp, le_min (by norm_num) (le_max_left _ _),
      le_trans (min_le_left _ _) (by norm_num)⟩

/-- What one lifecycle pass guarantees pointwise: id preserved, stake stays
nonnegative, no reactivation, and (for an initially active agent) clamped
uptime. -/
def OpEvol (a b : Agent) : Prop :=
  b.id = a.id ∧ 0 ≤ b.stake ∧ (b.active = true → a.active = true) ∧
  (a.active = true → 0.5 ≤ b.uptime ∧ b.uptime ≤ 1)

lemma opsPass_forall2 (per_em per_fee op_cost P sd sf : ℝ) (rng : ℕ → ℝ)
    (hsd0 : 0 ≤ sd) (hsd1 : sd ≤ 1) (hsf0 : 0 ≤ sf) (hsf1 : sf ≤ 1) :
    ∀ (agents : List Agent) (k : ℕ), (∀ a ∈ agents, 0 ≤ a.stake) →
      List.Forall₂ OpEvol agents
        (opsPass per_em per_fee op_cost P sd sf rng agents k).1 := by
  intro agents
  induction agents with
  | nil => intro k h; rw [opsPass]; exact List.Forall₂.nil
  | cons a rest ih =>
    intro k h
    rw [opsPass]
    by_cases ha : a.active = true
    · rw [if_pos ha]
      dsimp only
      refine List.Forall₂.cons ?_ (ih _ (fun x hx => h x (List.mem_cons_of_mem _ hx)))
      obtain ⟨h1, h2, h3, h4, h5⟩ := processAgent_facts a per_em per_fee op_cost P sd sf
        rng k hsd0 hsd1 hsf0 hsf1 (h a (List.mem_cons_self _ _))
      exact ⟨h1, h2, h3, fun _ => ⟨h4, h5⟩⟩
    · rw [if_neg ha]
      dsimp only
      refine List.Forall₂.cons ?_ (ih _ (fun x hx => h x (List.mem_cons_of_mem _ hx)))
      exact ⟨rfl, h a (List.mem_cons_self _ _), fun hb => hb, fun hb => absurd hb ha⟩

lemma appendEntrants_split (rng : ℕ → ℝ) :
    ∀ (n : ℕ) (agents : List Agent) (k : ℕ), ∃ ext : List Agent,
      (appendEntrants rng agents n k).1 = agents ++ ext ∧
      ∀ b ∈ ext, 0 ≤ b.stake := by
  intro n
  induction n with
  | zero =>
    intro agents k
    exact ⟨[], by rw [appendEntrants]; simp, by simp⟩
  | succ m ih =>
    intro agents k
    obtain ⟨ext, he, hb⟩ := ih (agents ++ [mkEntrant agents.length rng k]) (k + 6)
    refine ⟨mkEntrant agents.length rng k :: ext, ?_, ?_⟩
    · rw [appendEntrants, he]
      simp
    · intro b hbm
      rcases List.mem_cons.mp hbm with h1 | h1
      · subst h1
        have : (0 : ℤ) ≤ (randNat (rng (k + 5)) 20000 : ℤ) := by positivity
        simp only [mkEntrant]
        omega
      · exact hb b h1

lemma poachGo_forall2 : ∀ (agents : List Agent) (n : ℕ),
    List.Forall₂ (fun a b => b.id = a.id ∧ b.stake = a.stake ∧ b.uptime = a.uptime ∧
      (b.active = true → a.active = true)) agents (poachGo agents n) := by
  intro agents
  induction agents with
  | nil => intro n; rw [poachGo]; exact List.Forall₂.nil
  | cons a rest ih =>
    intro n
    rw [poachGo]
    split_ifs with h
    · exact List.Forall₂.cons ⟨rfl, rfl, rfl, by simp⟩ (ih _)
    · exact List.Forall₂.cons ⟨rfl, rfl, rfl, fun hb => hb⟩ (ih _)

/-- The poach shock's pointwise guarantee: everything but the active flag is
untouched, and no agent is reactivated. -/
def PoachRel (a b : Agent) : Prop :=
  b.id = a.id ∧ b.stake = a.stake ∧ b.uptime = a.uptime ∧
  (b.active = true → a.active = true)

lemma poachGo_forall2P : ∀ (agents : List Agent) (n : ℕ),
    List.Forall₂ PoachRel agents (poachGo agents n) := by
  intro agents
  induction agents with
  | nil => intro n; rw [poachGo]; exact List.Forall₂.nil
  | cons a rest ih =>
    intro n
    rw [poachGo]
    split_ifs with h
    · exact List.Forall₂.cons ⟨rfl, rfl, rfl, by simp⟩ (ih _)
    · exact List.Forall₂.cons ⟨rfl, rfl, rfl, fun hb => hb⟩ (ih _)

lemma poachPhase_forall2 (agents : List Agent) (scen : Scenario) (t ac : ℕ) :
    List.Forall₂ PoachRel agents (poachPhase agents scen t ac) := by
  rw [poachPhase]
  have hrefl : List.Forall₂ PoachRel agents agents :=
    List.forall₂_same.mpr (fun x _ => ⟨rfl, rfl, rfl, fun hb => hb⟩)
  rcases scen.shock_kind with _ | k
  · exact hrefl
  · cases k <;> dsimp only
    · exact hrefl
    · split_ifs
      · exact poachGo_forall2P _ _
      · exact hrefl
    · exact hrefl

lemma entryPhase_split (agents : List Agent) (per_em per_fee P : ℝ) (ac : ℕ)
    (rng : ℕ → ℝ) (k : ℕ) : ∃ ext : List Agent,
      (entryPhase agents per_em per_fee P ac rng k).1 = agents ++ ext ∧
      ∀ b ∈ ext, 0 ≤ b.stake := by
  rw [entryPhase]
  split_ifs
  · exact appendEntrants_split rng _ agents k
  · exact ⟨[], by simp, by simp⟩

lemma forall2_getD {R : Agent → Agent → Prop} :
    ∀ {l l' : List Agent}, List.Forall₂ R l l' → ∀ {i : ℕ}, i < l.length →
      R (l.getD i default) (l'.getD i default) := by
  intro l l' h
  induction h with
  | nil => intro i hi; simp at hi
  | cons hR hrest ih =>
    intro i hi
    cases i with
    | zero => simpa using hR
    | succ j =>
      simp only [List.getD_cons_succ]
      exact ih (by simpa using hi)

lemma forall2_mem_right {R : Agent → Agent → Prop} :
    ∀ {l l' : List Agent}, List.Forall₂ R l l' → ∀ {b : Agent}, b ∈ l' →
      ∃ a ∈ l, R a b := by
  intro l l' h
  induction h with
  | nil => intro b hb; simp at hb
  | cons hR hrest ih =>
    intro b hb
    rcases List.mem_cons.mp hb with h1 | h1
    · exact ⟨_, List.mem_cons_self _ _, h1 ▸ hR⟩
    · obtain ⟨a, ha, hr⟩ := ih h1
      exact ⟨a, List.mem_cons_of_mem _ ha, hr⟩

lemma getD_map_lt (f : Agent → Agent) (l : List Agent) {i : ℕ} (hi : i < l.length) :
    (l.map f).getD i default = f (l.getD i default) := by
  rw [List.getD_eq_getElem _ _ (by simpa using hi), List.getD_eq_getElem _ _ hi,
    List.getElem_map]

lemma repUpd_frame (a : Agent) : (repUpd a).id = a.id ∧ (repUpd a).stake = a.stake ∧
    (repUpd a).uptime = a.uptime ∧ (repUpd a).active = a.active := by
  rw [repUpd]
  split <;> exact ⟨rfl, rfl, rfl, rfl⟩

lemma update_reputation_eq_or_map (agents : List Agent) (t : ℕ) :
    update_reputation agents t = agents ∨
    update_reputation agents t = agents.map repUpd := by
  rw [update_reputation]
  split_ifs <;> simp

lemma lifecycle_core {agents base ext final : List Agent}
    (hpass : List.Forall₂ OpEvol agents base)
    (hext : ∀ b ∈ ext, 0 ≤ b.stake)
    (hpoach : List.Forall₂ PoachRel (base ++ ext) final) :
    agents.length ≤ final.length ∧
    (∀ b ∈ final, 0 ≤ b.stake) ∧
    ∀ i, i < agents.length →
      ((final.getD i default).id = (agents.getD i default).id ∧
       ((agents.getD i default).active = false →
         (final.getD i default).active = false) ∧
       ((agents.getD i default).active = true →
         0.5 ≤ (final.getD i default).uptime ∧
         (final.getD i default).uptime ≤ 1)) := by
  have hlen1 : agents.length = base.length := hpass.length_eq
  have hlen2 : (base ++ ext).length = final.length := hpoach.length_eq
  have hlenf : agents.length ≤ final.length := by
    rw [hlen1]
    rw [List.length_append] at hlen2
    omega
  have hbase_stake : ∀ b ∈ base, 0 ≤ b.stake := by
    intro b hb
    obtain ⟨a, -, hr⟩ := forall2_mem_right hpass hb
    exact hr.2.1
  have hfinal_stake : ∀ b ∈ final, 0 ≤ b.stake := by
    intro b hb
    obtain ⟨a, ha, hr⟩ := forall2_mem_right hpoach hb
    rw [hr.2.1]
    rcases List.mem_append.mp ha with h1 | h1
    · exact hbase_stake a h1
    · exact hext a h1
  refine ⟨hlenf, hfinal_stake, ?_⟩
  intro i hi
  have hib : i < base.length := by omega
  have hibe : i < (base ++ ext).length := by
    rw [List.length_append]
    omega
  have r1 := forall2_getD hpass hi
  have hga : (base ++ ext).getD i default = base.getD i default :=
    List.getD_append _ _ _ _ hib
  have r2 := forall2_getD hpoach hibe
  rw [hga] at r2
  refine ⟨?_, ?_, ?_⟩
  · rw [r2.1, r1.1]
  · intro hfalse
    by_contra hne
    have htrue : (final.getD i default).active = true := by
      cases hh : (final.getD i default).active
      · exact absurd hh hne
      · rfl
    have h2 := r2.2.2.2 htrue
    have h3 := r1.2.2.1 h2
    rw [hfalse] at h3
    cases h3
  · intro htrue
    rw [r2.2.2.1]
    exact r1.2.2.2 htrue

lemma reputation_carries {agents l : List Agent} {t : ℕ}
    (h1 : agents.length ≤ l.length)
    (h2 : ∀ b ∈ l, 0 ≤ b.stake)
    (h3 : ∀ i, i < agents.length →
      ((l.getD i default).id = (agents.getD i default).id ∧
       ((agents.getD i default).active = false →
         (l.getD i default).active = false) ∧
       ((agents.getD i default).active = true →
         0.5 ≤ (l.getD i default).uptime ∧ (l.getD i default).uptime ≤ 1))) :
    agents.length ≤ (update_reputation l t).length ∧
    (∀ b ∈ update_reputation l t, 0 ≤ b.stake) ∧
    ∀ i, i < agents.length →
      (((update_reputation l t).getD i default).id = (agents.getD i default).id ∧
       ((agents.getD i default).active = false →
         ((update_reputation l t).getD i default).active = false) ∧
       ((agents.getD i default).active = true →
         0.5 ≤ ((update_reputation l t).getD i default).uptime ∧
         ((update_reputation l t).getD i default).uptime ≤ 1)) := by
  rcases update_reputation_eq_or_map l t with h | h
  · rw [h]
    exact ⟨h1, h2, h3⟩
  · rw [h]
    refine ⟨by simpa using h1, ?_, ?_⟩
    · intro b hb
      obtain ⟨c, hc, hbc⟩ := List.mem_map.mp hb
      rw [← hbc, (repUpd_frame c).2.1]
      exact h2 c hc
    · intro i hi
      have hil : i < l.length := by omega
      rw [getD_map_lt repUpd l hil]
      obtain ⟨g1, g2, g3⟩ := h3 i hi
      have hf := repUpd_frame (l.getD i default)
      refine ⟨by rw [hf.1, g1], ?_, ?_⟩
      · intro hfalse
        rw [hf.2.2.2]
        exact g2 hfalse
      · intro htrue
        rw [hf.2.2.1]
        exact g3 htrue


/-- The lifecycle facts the claims need, relating a population before and
after one day's mutation: never shrinks, stakes stay nonnegative, ids are
preserved in place, deactivation is permanent, and an initially active
agent ends the day with clamped uptime. -/
abbrev AgentsFacts (agents res : List Agent) : Prop :=
  agents.length ≤ res.length ∧ (∀ b ∈ res, 0 ≤ b.stake) ∧
  ∀ i, i < agents.length →
    ((res.getD i default).id = (agents.getD i default).id ∧
     ((agents.getD i default).active = false → (res.getD i default).active = false) ∧
     ((agents.getD i default).active = true →
       0.5 ≤ (res.getD i default).uptime ∧ (res.getD i default).uptime ≤ 1))

lemma countActive_pos_of_active {agents : List Agent} {i : ℕ} (hi : i < agents.length)
    (ha : (agents.getD i default).active = true) : countActive agents ≠ 0 := by
  intro h0
  have hmem : agents.getD i default ∈ agents := by
    rw [List.getD_eq_getElem _ _ hi]
    exact List.getElem_mem _
  exact List.countP_eq_zero.mp h0 _ hmem ha

lemma opsEntryPoach_facts (agents : List Agent) (pe pf oc P sd sf : ℝ)
    (rng : ℕ → ℝ) (k : ℕ) (pe2 pf2 P2 : ℝ) (ac2 k2 : ℕ) (scen : Scenario)
    (t ac3 : ℕ) (hsd0 : 0 ≤ sd) (hsd1 : sd ≤ 1) (hsf0 : 0 ≤ sf) (hsf1 : sf ≤ 1)
    (hstakes : ∀ a ∈ agents, 0 ≤ a.stake) :
    AgentsFacts agents
      (poachPhase ((entryPhase (opsPass pe pf oc P sd sf rng agents k).1
        pe2 pf2 P2 ac2 rng k2).1) scen t ac3) := by
  obtain ⟨ext, he, hext⟩ :=
    entryPhase_split (opsPass pe pf oc P sd sf rng agents k).1 pe2 pf2 P2 ac2 rng k2
  rw [he]
  exact lifecycle_core (opsPass_forall2 pe pf oc P sd sf rng hsd0 hsd1 hsf0 hsf1 agents k hstakes)
    hext (poachPhase_forall2 _ scen t ac3)

lemma update_operators_facts (agents : List Agent) (E F : ℝ) (N : ℕ) (P : ℝ)
    (scen : Scenario) (t : ℕ) (rng : ℕ → ℝ) (k : ℕ) (T cm : ℝ) (osd osf : Option ℝ)
    (hsd0 : 0 ≤ osd.getD SLASH_DOWNTIME) (hsd1 : osd.getD SLASH_DOWNTIME ≤ 1)
    (hsf0 : 0 ≤ osf.getD SLASH_FRAUD) (hsf1 : osf.getD SLASH_FRAUD ≤ 1)
    (hstakes : ∀ a ∈ agents, 0 ≤ a.stake) :
    AgentsFacts agents (update_operators agents E F N P scen t rng k T cm osd osf).agents := by
  rw [update_operators]
  by_cases hac : countActive agents = 0
  · rw [if_pos hac]
    refine ⟨le_refl _, hstakes, ?_⟩
    intro i hi
    refine ⟨rfl, fun h => h, ?_⟩
    intro htrue
    exact absurd hac (countActive_pos_of_active hi htrue)
  · rw [if_neg hac]
    exact opsEntryPoach_facts agents _ _ _ _ _ _ rng _ _ _ _ _ _ scen t _
      hsd0 hsd1 hsf0 hsf1 hstakes

lemma step_agents_eq (cfg : RunConfig) (rng : ℕ → ℝ) (t : ℕ) (s : SimState) :
    ((step cfg rng t s).1).agents =
      update_reputation (update_operators s.agents (dayEmission cfg t s).1
        (compute_demand t s.N cfg.scen rng s.k (dayCostMult cfg t s)) s.N s.P
        cfg.scen t rng (s.k + 1) s.T (dayCostMult cfg t s)
        cfg.slash_downtime cfg.slash_fraud).agents t := rfl

lemma step_agents_facts (cfg : RunConfig) (rng : ℕ → ℝ) (t : ℕ) (s : SimState)
    (hsd0 : 0 ≤ cfg.slash_downtime.getD SLASH_DOWNTIME)
    (hsd1 : cfg.slash_downtime.getD SLASH_DOWNTIME ≤ 1)
    (hsf0 : 0 ≤ cfg.slash_fraud.getD SLASH_FRAUD)
    (hsf1 : cfg.slash_fraud.getD SLASH_FRAUD ≤ 1)
    (hstakes : ∀ a ∈ s.agents, 0 ≤ a.stake) :
    AgentsFacts s.agents ((step cfg rng t s).1).agents := by
  rw [step_agents_eq]
  obtain ⟨f1, f2, f3⟩ := update_operators_facts s.agents (dayEmission cfg t s).1
    (compute_demand t s.N cfg.scen rng s.k (dayCostMult cfg t s)) s.N s.P
    cfg.scen t rng (s.k + 1) s.T (dayCostMult cfg t s)
    cfg.slash_downtime cfg.slash_fraud hsd0 hsd1 hsf0 hsf1 hstakes
  exact reputation_carries f1 f2 f3

lemma buildOps_stakes : ∀ (rows : List (OpType × ℝ × ℝ × ℝ × ℝ)) (i : ℕ)
    (rng : ℕ → ℝ) (k : ℕ), ∀ a ∈ (buildOps rows i rng k).1, 0 ≤ a.stake := by
  intro rows
  induction rows with
  | nil => intro i rng k a ha; rw [buildOps] at ha; simp at ha
  | cons row rest ih =>
    intro i rng k a ha
    obtain ⟨ty, et, ps, ub, fp⟩ := row
    rw [buildOps] at ha
    rcases List.mem_cons.mp ha with h1 | h1
    · subst h1
      have h2 : (0 : ℤ) ≤ (randNat (rng (k + 1)) 20000 : ℤ) := by positivity
      dsimp only
      omega
    · exact ih (i + 1) rng (k + 2) a h1

/-- The state on day `t` of a full run (seeded population, `t` loop steps). -/
noncomputable def stateAt (gen : ℤ → ℕ → ℝ) (cfg : RunConfig) (t : ℕ) : SimState :=
  stateFrom cfg (gen cfg.seed) (initState (gen cfg.seed)) t

lemma stakes_stateAt (gen : ℤ → ℕ → ℝ) (cfg : RunConfig)
    (hsd0 : 0 ≤ cfg.slash_downtime.getD SLASH_DOWNTIME)
    (hsd1 : cfg.slash_downtime.getD SLASH_DOWNTIME ≤ 1)
    (hsf0 : 0 ≤ cfg.slash_fraud.getD SLASH_FRAUD)
    (hsf1 : cfg.slash_fraud.getD SLASH_FRAUD ≤ 1) :
    ∀ t : ℕ, ∀ a ∈ (stateAt gen cfg t).agents, 0 ≤ a.stake := by
  intro t
  induction t with
  | zero =>
    intro a ha
    exact buildOps_stakes (typesFor 2000) 0 (gen cfg.seed) 0 a ha
  | succ m ih =>
    have h := step_agents_facts cfg (gen cfg.seed) m (stateAt gen cfg m)
      hsd0 hsd1 hsf0 hsf1 ih
    exact h.2.1

/-- C8: under slashing penalties in `[0, 1]` (the defaults and all sweep
values), every operator's stake is nonnegative on every day of a run, the
population never shrinks (deactivation is in place, ids preserved), and an
operator whose active flag is false never becomes active again. -/
theorem operator_tombstone_invariants :
    ∀ (gen : ℤ → ℕ → ℝ) (cfg : RunConfig),
      0 ≤ cfg.slash_downtime.getD SLASH_DOWNTIME →
      cfg.slash_downtime.getD SLASH_DOWNTIME ≤ 1 →
      0 ≤ cfg.slash_fraud.getD SLASH_FRAUD →
      cfg.slash_fraud.getD SLASH_FRAUD ≤ 1 →
      ∀ t : ℕ,
        (∀ a ∈ (stateAt gen cfg t).agents, 0 ≤ a.stake) ∧
        (stateAt gen cfg t).agents.length ≤ (stateAt gen cfg (t + 1)).agents.length ∧
        ∀ i, i < (stateAt gen cfg t).agents.length →
          (((stateAt gen cfg (t + 1)).agents.getD i default).id =
            ((stateAt gen cfg t).agents.getD i default).id ∧
           (((stateAt gen cfg t).agents.getD i default).active = false →
            ((stateAt gen cfg (t + 1)).agents.getD i default).active = false)) := by
  intro gen cfg hsd0 hsd1 hsf0 hsf1 t
  have hstakes := stakes_stateAt gen cfg hsd0 hsd1 hsf0 hsf1 t
  have hstep : stateAt gen cfg (t + 1) =
      (step cfg (gen cfg.seed) t (stateAt gen cfg t)).1 := rfl
  obtain ⟨f1, f2, f3⟩ := step_agents_facts cfg (gen cfg.seed) t (stateAt gen cfg t)
    hsd0 hsd1 hsf0 hsf1 hstakes
  rw [hstep]
  exact ⟨hstakes, f1, fun i hi => ⟨(f3 i hi).1, (f3 i hi).2.1⟩⟩

/-- C8 witness: the tombstone invariants instantiated at day 5 of the
bear/PID configuration (default penalties 0.10 and 1.00) under a concrete
stream. -/
theorem operator_tombstone_invariants_witness :
    (∀ a ∈ (stateAt zeroGen bearPidConfig 5).agents, 0 ≤ a.stake) ∧
    (stateAt zeroGen bearPidConfig 5).agents.length ≤
      (stateAt zeroGen bearPidConfig (5 + 1)).agents.length ∧
    ∀ i, i < (stateAt zeroGen bearPidConfig 5).agents.length →
      (((stateAt zeroGen bearPidConfig (5 + 1)).agents.getD i default).id =
        ((stateAt zeroGen bearPidConfig 5).agents.getD i default).id ∧
       (((stateAt zeroGen bearPidConfig 5).agents.getD i default).active = false →
        ((stateAt zeroGen bearPidConfig (5 + 1)).agents.getD i default).active = false)) :=
  operator_tombstone_invariants zeroGen bearPidConfig
    (by norm_num [bearPidConfig, SLASH_DOWNTIME])
    (by norm_num [bearPidConfig, SLASH_DOWNTIME])
    (by norm_num [bearPidConfig, SLASH_FRAUD])
    (by norm_num [bearPidConfig, SLASH_FRAUD]) 5

/-- C10: an operator that is active when the lifecycle update begins has
uptime in `[0.5, 1.0]` after the call (the daily jitter is clamped); an
appended entrant's uptime is the raw draw `0.95 + 0.02 * draw`, with no
clamp — a draw of 10 yields uptime 1.15, outside the band. -/
theorem uptime_band_spec :
    (∀ (agents : List Agent) (E F : ℝ) (N : ℕ) (P : ℝ) (scen : Scenario) (t : ℕ)
       (rng : ℕ → ℝ) (k : ℕ) (T cm : ℝ) (osd osf : Option ℝ) (i : ℕ),
      0 ≤ osd.getD SLASH_DOWNTIME → osd.getD SLASH_DOWNTIME ≤ 1 →
      0 ≤ osf.getD SLASH_FRAUD → osf.getD SLASH_FRAUD ≤ 1 →
      (∀ a ∈ agents, 0 ≤ a.stake) →
      i < agents.length → (agents.getD i default).active = true →
      0.5 ≤ (((update_operators agents E F N P scen t rng k T cm osd osf).agents.getD
        i default).uptime) ∧
      ((update_operators agents E F N P scen t rng k T cm osd osf).agents.getD
        i default).uptime ≤ 1) ∧
    (∀ (idx : ℕ) (rng : ℕ → ℝ) (kk : ℕ),
      (mkEntrant idx rng kk).uptime = 0.95 + 0.02 * rng (kk + 3)) ∧
    (mkEntrant 0 (fun _ => 10) 0).uptime = 1.15 ∧
    ¬ ((mkEntrant 0 (fun _ => 10) 0).uptime ≤ 1) := by
  refine ⟨?_, ?_, ?_, ?_⟩
  · intro agents E F N P scen t rng k T cm osd osf i hsd0 hsd1 hsf0 hsf1 hstakes hi ha
    obtain ⟨-, -, f3⟩ := update_operators_facts agents E F N P scen t rng k T cm osd osf
      hsd0 hsd1 hsf0 hsf1 hstakes
    exact (f3 i hi).2.2 ha
  · intro idx rng kk
    simp only [mkEntrant, normalDraw]
    ring
  · norm_num [mkEntrant, normalDraw]
  · norm_num [mkEntrant, normalDraw]

end MeshNet






